import Mathlib

/-!
Shallow embedding of the TappedIn chat widget (src/src/App.tsx).

The React component's state hooks become fields of `AppState`; the event
handlers (`handleCreateUser`, `handleSendMessage`, `handleLogout`), the
transport helpers (`sendMessage`, `fetchMessages`) and the realtime INSERT
callback become pure state-transition functions.  Nondeterministic inputs of
the real code — `Math.random()` ids, `Date.now()` timestamps, and the outcome
of each awaited Supabase call — are passed in as explicit parameters.
Timestamps are `Int` milliseconds.
-/

namespace TappedIn

/-- `Message.type` field: `'message' | 'system'` (App.tsx line 44). -/
inductive MsgType where
  | message
  | system
deriving DecidableEq

/-- The `Message` interface (App.tsx lines 38-45). -/
structure Message where
  id : String
  userId : String
  username : String
  text : String
  timestamp : Int
  type : MsgType
deriving DecidableEq

/-- `User.status` field: `'online' | 'away' | 'busy'` (App.tsx line 34). -/
inductive UserStatus where
  | online
  | away
  | busy
deriving DecidableEq

/-- The `User` interface (App.tsx lines 31-36). -/
structure User where
  id : String
  username : String
  status : UserStatus
  lastSeen : Int
deriving DecidableEq

/-- Outcome of an awaited `supabase.from('messages').insert(...)` call:
success, a returned database error with its message, or a thrown exception. -/
inductive PublishResult where
  | ok
  | dbError (msg : String)
  | thrown
deriving DecidableEq

/-- Outcome of the awaited historical `select` query in `fetchMessages`:
rows returned, a database error with its message, or a thrown exception. -/
inductive FetchResult where
  | ok (data : List Message)
  | dbError (msg : String)
  | thrown
deriving DecidableEq

/-- The component state relevant to the claims: `currentUser`, `users`,
`messages`, `isChatOpen`, `connectionError`, `isSupabaseConfigured`
(App.tsx lines 80-95), plus the browser `localStorage` key-value store,
whether presence is currently tracked on the presence channel, and the
remote `messages` table rows as seen by this client's inserts. -/
structure AppState where
  currentUser : Option User
  users : List User
  messages : List Message
  isChatOpen : Bool
  connectionError : Option String
  supabaseConfigured : Bool
  localStore : List (String × String)
  presenceTracked : Bool
  remoteRows : List Message
deriving DecidableEq

/-- JS `String.prototype.trim` on the character list: drop leading and
trailing whitespace. -/
def trimChars (l : List Char) : List Char :=
  ((l.dropWhile Char.isWhitespace).reverse.dropWhile Char.isWhitespace).reverse

/-- JS `s.trim()` as used on `usernameInput` and `messageInput`. -/
def jsTrim (s : String) : String := String.mk (trimChars s.data)

/-- The realtime INSERT callback (App.tsx lines 235-238):
`setMessages((prev) => { if (prev.find((m) => m.id === message.id)) return prev;
return [...prev, message]; })` — drop the event if an entry with the same `id`
is already present, otherwise append it at the end. -/
def appendMessage (prev : List Message) (m : Message) : List Message :=
  if prev.any (fun x => decide (x.id = m.id)) then prev else prev ++ [m]

/-- Ordering used by the historical query's `order('timestamp', ascending: true)`. -/
def tsLe (a b : Message) : Prop := a.timestamp ≤ b.timestamp

instance : DecidableRel tsLe := fun a b =>
  inferInstanceAs (Decidable (a.timestamp ≤ b.timestamp))

instance : IsTotal Message tsLe := ⟨fun a b => le_total a.timestamp b.timestamp⟩

instance : IsTrans Message tsLe := ⟨fun _ _ _ h1 h2 => le_trans h1 h2⟩

/-- The historical query (App.tsx lines 150-154):
`select('*').order('timestamp', { ascending: true }).limit(100)` over the
stored rows — sort ascending by timestamp, then keep the first 100 rows. -/
def fetchQuery (rows : List Message) : List Message :=
  (List.insertionSort tsLe rows).take 100

/-- `fetchMessages` (App.tsx lines 143-178): skipped when Supabase is not
configured; on success the fetched rows REPLACE the `messages` state
(`setMessages(formattedMessages)`, line 171); a database error or a thrown
exception only sets `connectionError`. -/
def fetchMessages (r : FetchResult) (st : AppState) : AppState :=
  if st.supabaseConfigured = false then st
  else
    match r with
    | .ok data => { st with messages := data }
    | .dbError m => { st with connectionError := some ("Database error: " ++ m) }
    | .thrown => { st with connectionError := some "Failed to connect to chat server" }

/-- `sendMessage` (App.tsx lines 366-389): no-op when Supabase is unavailable;
on success the row is inserted into the remote `messages` table (the local
`messages` state is NOT touched); an insert error or a thrown exception is
caught and reduced to setting `connectionError`. `row` carries the inserted
record, with `row.id` standing for the id the database generates. -/
def sendMessage (row : Message) (r : PublishResult) (st : AppState) : AppState :=
  if st.supabaseConfigured = false then st
  else
    match r with
    | .ok => { st with remoteRows := st.remoteRows ++ [row] }
    | .dbError m => { st with connectionError := some ("Failed to send: " ++ m) }
    | .thrown => { st with connectionError := some "Failed to send message" }

/-- `handleSendMessage` (App.tsx lines 429-454): returns unchanged when the
trimmed input is empty or no user is logged in; in networked mode it only
calls `sendMessage` (publish to the remote table); in local-only mode it
appends the new message to the in-memory `messages` state. `newId` is the
`generateId()` value of the local branch, `dbId` the database-generated id
of the networked insert, `now` is `Date.now()`. -/
def handleSendMessage (messageInput : String) (newId dbId : String) (now : Int)
    (r : PublishResult) (st : AppState) : AppState :=
  if trimChars messageInput.data = [] then st
  else
    match st.currentUser with
    | none => st
    | some cu =>
      if st.supabaseConfigured then
        sendMessage ⟨dbId, cu.id, cu.username, jsTrim messageInput, now, .message⟩ r st
      else
        { st with messages := st.messages ++
            [⟨newId, cu.id, cu.username, jsTrim messageInput, now, .message⟩] }

/-- `handleCreateUser` (App.tsx lines 392-427): rejects an input whose trim is
empty (`if (!usernameInput.trim()) return`); otherwise creates the user with
the trimmed name, opens the chat, and emits the arrival system event — through
`sendMessage` in networked mode, by a local append in local-only mode. -/
def handleCreateUser (usernameInput : String) (newUserId msgId dbId : String)
    (now : Int) (r : PublishResult) (st : AppState) : AppState :=
  if trimChars usernameInput.data = [] then st
  else
    let newUser : User := ⟨newUserId, jsTrim usernameInput, .online, now⟩
    let st1 := { st with currentUser := some newUser, isChatOpen := true }
    if st1.supabaseConfigured then
      sendMessage
        ⟨dbId, "system", "System", newUser.username ++ " has entered the chat",
          now, .system⟩ r st1
    else
      { st1 with messages := st1.messages ++
          [⟨msgId, "system", "System",
            newUser.username ++ " has entered the chat (local mode)", now, .system⟩] }

/-- `handleLogout` (App.tsx lines 456-472): when logged in and in networked
mode, first awaits `sendMessage` with the departing system event (whose
errors `sendMessage` catches internally); then unconditionally clears
`currentUser`, closes the chat, removes the persisted identity record from
`localStorage`, and untracks the presence channel. -/
def handleLogout (dbId : String) (now : Int) (r : PublishResult)
    (st : AppState) : AppState :=
  let st1 :=
    match st.currentUser with
    | some cu =>
      if st.supabaseConfigured then
        sendMessage
          ⟨dbId, "system", "System", cu.username ++ " has left the chat",
            now, .system⟩ r st
      else st
    | none => st
  { st1 with
      currentUser := none
      isChatOpen := false
      localStore := st1.localStore.filter (fun kv => decide (kv.1 ≠ "tappedin_current_user"))
      presenceTracked := false }

/-- `getOnlineUsers` (App.tsx lines 481-484):
`users.filter(u => now - u.lastSeen < 60000)`. -/
def getOnlineUsers (now : Int) (users : List User) : List User :=
  users.filter (fun u => decide (now - u.lastSeen < 60000))

/-- The rendered message list (App.tsx lines 709, 718):
`messages.filter(m => m.userId !== 'stat')`. -/
def shownMessages (msgs : List Message) : List Message :=
  msgs.filter (fun m => decide (m.userId ≠ "stat"))

/-- The status-bar counter (App.tsx line 822):
`messages.filter(m => m.type === 'message' && m.userId !== 'stat').length`. -/
def statusBarMessageCount (msgs : List Message) : Nat :=
  (msgs.filter (fun m => decide (m.type = MsgType.message) && decide (m.userId ≠ "stat"))).length

/-- The unread badge on the floating chat button (App.tsx lines 852-855):
`messages.filter(m => m.type === 'message' && m.userId !== currentUser.id).length`
— note it filters on the current user's id, not on `'stat'`. -/
def unreadBadgeCount (msgs : List Message) (currentUserId : String) : Nat :=
  (msgs.filter (fun m => decide (m.type = MsgType.message) && decide (m.userId ≠ currentUserId))).length

/-- A list is ascending in `occurredAt` (the `timestamp` field). -/
def SortedByTs (l : List Message) : Prop := l.Pairwise tsLe

/-- A sample logged-in networked-mode state. -/
def aliceUser : User := ⟨"u1", "alice", .online, 0⟩

/-- Networked-mode state: Supabase configured, alice logged in, empty log. -/
def netState : AppState :=
  ⟨some aliceUser, [], [], true, none, true, [("tappedin_current_user", "alice")], true, []⟩

/-- Networked-mode state whose log already holds one live-pushed event. -/
def eventA : Message := ⟨"a", "u1", "alice", "hi", 1, .message⟩

/-- `netState` after the live stream delivered `eventA`. -/
def netStateWithA : AppState :=
  ⟨some aliceUser, [], [eventA], true, none, true, [("tappedin_current_user", "alice")], true, []⟩

/-- Local-only (degraded) state: Supabase not configured, alice logged in. -/
def localState : AppState :=
  ⟨some aliceUser, [], [], true, none, false, [("tappedin_current_user", "alice")], false, []⟩

/-- A statistics event authored by the literal user id `"stat"`. -/
def statMsg : Message := ⟨"s1", "stat", "Stats", "42", 0, .message⟩

/-- 101 stored rows with timestamps 0, 1, ..., 100. -/
def sampleRows : List Message :=
  (List.range 101).map (fun i => ⟨"", "u", "u", "t", (i : Int), .message⟩)

/-- An event older than `eventA`, delivered after it. -/
def lateEvent : Message := ⟨"b", "u2", "bob", "old", 0, .message⟩

theorem sendMessage_frame (row : Message) (r : PublishResult) (st : AppState) :
    (sendMessage row r st).currentUser = st.currentUser ∧
    (sendMessage row r st).messages = st.messages ∧
    (sendMessage row r st).localStore = st.localStore ∧
    (sendMessage row r st).presenceTracked = st.presenceTracked ∧
    (sendMessage row r st).isChatOpen = st.isChatOpen := by
  unfold sendMessage
  by_cases h : st.supabaseConfigured = false <;> cases r <;> simp [h]

/-- C1 is refuted: in networked mode `handleSendMessage` performs no local
append at all — on a transport failure the connectivity error is surfaced but
the sender's log stays empty, and even on a successful publish the local log
is unchanged (it fills only when the live stream echoes the insert). -/
theorem networked_send_no_local_echo :
    netState.supabaseConfigured = true ∧
    netState.currentUser = some aliceUser ∧
    (handleSendMessage "hi" "m1" "d1" 5 .thrown netState).messages = [] ∧
    (handleSendMessage "hi" "m1" "d1" 5 .thrown netState).connectionError
      = some "Failed to send message" ∧
    (handleSendMessage "hi" "m1" "d1" 5 .ok netState).messages = [] := by
  decide

/-- C1 amended: for a send of a non-empty body by a logged-in user, the local
log gains the message immediately only in degraded (local-only) mode; in
networked mode the local log is unchanged by the send itself, and a transport
failure surfaces a connectivity error with no local copy of the message. -/
theorem send_local_echo_matrix (st : AppState) (input newId dbId : String)
    (now : Int) (r : PublishResult) (cu : User)
    (hcu : st.currentUser = some cu) (hne : trimChars input.data ≠ []) :
    (st.supabaseConfigured = false →
      (handleSendMessage input newId dbId now r st).messages
        = st.messages ++ [⟨newId, cu.id, cu.username, jsTrim input, now, .message⟩]) ∧
    (st.supabaseConfigured = true →
      (handleSendMessage input newId dbId now r st).messages = st.messages ∧
      (handleSendMessage input newId dbId now .thrown st).connectionError
        = some "Failed to send message") := by
  constructor
  · intro hs
    simp [handleSendMessage, hne, hcu, hs]
  · intro hs
    constructor
    · simp only [handleSendMessage, if_neg hne, hcu, hs, if_pos]
      exact (sendMessage_frame _ _ _).2.1
    · simp [handleSendMessage, hne, hcu, hs, sendMessage]

/-- Witness for the amended C1 at concrete inputs. -/
theorem send_local_echo_matrix_witness :
    ((handleSendMessage "hi" "m1" "d1" 5 .ok localState).messages
      = localState.messages ++ [⟨"m1", "u1", "alice", jsTrim "hi", 5, .message⟩]) ∧
    ((handleSendMessage "hi" "m1" "d1" 5 .ok netState).messages
      = netState.messages) := by
  have h1 := send_local_echo_matrix localState "hi" "m1" "d1" 5 .ok aliceUser rfl (by decide)
  have h2 := send_local_echo_matrix netState "hi" "m1" "d1" 5 .ok aliceUser rfl (by decide)
  exact ⟨h1.1 rfl, (h2.2 rfl).1⟩

/-- C2: appending a `ChatEvent` whose id is already in the Message Log leaves
the visible sequence unchanged — the live-stream append applied twice with
the same id equals a single application, and an event present exactly once
in the log (e.g. loaded by the initial fetch) stays a single entry after the
live push delivers it again. -/
theorem append_dedup_by_id (prev batch : List Message) (m m' : Message)
    (hid : m'.id = m.id) :
    appendMessage (appendMessage prev m) m' = appendMessage prev m ∧
    (batch.countP (fun x => decide (x.id = m.id)) = 1 →
      (appendMessage batch m).countP (fun x => decide (x.id = m.id)) = 1) := by
  constructor
  · unfold appendMessage
    by_cases h : prev.any (fun x => decide (x.id = m.id)) = true
    · simp [h, hid]
    · simp [h, hid]
  · intro hc
    have hpos : 0 < batch.countP (fun x => decide (x.id = m.id)) := by omega
    have hany : batch.any (fun x => decide (x.id = m.id)) = true :=
      List.any_eq_true.mpr (List.countP_pos_iff.mp hpos)
    unfold appendMessage
    simp [hany, hc]

/-- Witness for C2 at concrete inputs. -/
theorem append_dedup_by_id_witness :
    (appendMessage (appendMessage [] eventA) eventA = appendMessage [] eventA) ∧
    ([eventA].countP (fun x => decide (x.id = eventA.id)) = 1) ∧
    ((appendMessage [eventA] eventA).countP (fun x => decide (x.id = eventA.id)) = 1) := by
  have h := append_dedup_by_id [] [eventA] eventA eventA rfl
  exact ⟨h.1, by decide, h.2 (by decide)⟩

/-- C3: the historical query sorts ascending by timestamp and limits to 100,
so with 101 stored rows (timestamps 0..100) it returns the 100 EARLIEST rows
(all of timestamp ≤ 99) while the most recent stored event (timestamp 100)
exists and is not loaded — contradicting the claimed "most recent 100". -/
theorem fetchQuery_loads_earliest_not_latest :
    ((fetchQuery sampleRows).length = 100) ∧
    ((fetchQuery sampleRows).all (fun r => decide (r.timestamp ≤ 99)) = true) ∧
    (sampleRows.any (fun r => decide (r.timestamp = 100)) = true) := by
  decide

/-- C4 is refuted: the historical bulk load replaces the whole log
(`setMessages(formattedMessages)`), discarding an event that was already
present before the fetch completed. -/
theorem fetch_discards_prior_event :
    eventA ∈ netStateWithA.messages ∧
    eventA ∉ (fetchMessages (.ok []) netStateWithA).messages := by
  decide

/-- C4 amended: the live-stream append never discards an event already in the
log, but the historical bulk load replaces the log contents wholesale with
the fetched batch — there is no per-event dedup against existing contents,
so events appended before the fetch completes survive only if they are also
in the batch. -/
theorem append_keeps_fetch_replaces (prev batch : List Message) (m e : Message)
    (st : AppState) (he : e ∈ prev) (hs : st.supabaseConfigured = true) :
    e ∈ appendMessage prev m ∧
    (fetchMessages (.ok batch) st).messages = batch := by
  constructor
  · unfold appendMessage
    split
    · exact he
    · exact List.mem_append_left _ he
  · simp [fetchMessages, hs]

/-- Witness for the amended C4 at concrete inputs. -/
theorem append_keeps_fetch_replaces_witness :
    eventA ∈ appendMessage [eventA] lateEvent ∧
    (fetchMessages (.ok []) netStateWithA).messages = [] := by
  exact append_keeps_fetch_replaces [eventA] [] lateEvent eventA netStateWithA
    (by decide) (by decide)

/-- C5: `getOnlineUsers` keeps exactly the participants whose last heartbeat
is strictly less than 60000 ms old: membership in the online view is
equivalent to membership in the known-participant list together with
`now - lastSeen < 60000`. -/
theorem getOnlineUsers_iff (now : Int) (users : List User) (u : User) :
    u ∈ getOnlineUsers now users ↔ u ∈ users ∧ now - u.lastSeen < 60000 := by
  simp [getOnlineUsers, List.mem_filter]

/-- C6 is refuted: in degraded mode the send appends the message only to the
in-memory list; the durable store is unchanged by the send, so there is no
storage write and no storage-change notification for a second tab to observe. -/
theorem degraded_send_writes_no_storage :
    localState.supabaseConfigured = false ∧
    (handleSendMessage "hi" "m1" "d1" 5 .ok localState).messages
      = [⟨"m1", "u1", "alice", "hi", 5, .message⟩] ∧
    (handleSendMessage "hi" "m1" "d1" 5 .ok localState).localStore
      = localState.localStore := by
  decide

/-- C6 amended: in degraded mode `send` still appends the message to the
in-memory log, but it writes nothing to the durable store (and nothing to the
remote table), so no cross-tab storage-change notification carries the event. -/
theorem degraded_send_inmemory_only (st : AppState) (input newId dbId : String)
    (now : Int) (r : PublishResult) (cu : User) (hcu : st.currentUser = some cu)
    (hne : trimChars input.data ≠ []) (hdeg : st.supabaseConfigured = false) :
    (handleSendMessage input newId dbId now r st).messages
      = st.messages ++ [⟨newId, cu.id, cu.username, jsTrim input, now, .message⟩] ∧
    (handleSendMessage input newId dbId now r st).localStore = st.localStore ∧
    (handleSendMessage input newId dbId now r st).remoteRows = st.remoteRows := by
  simp [handleSendMessage, hne, hcu, hdeg]

/-- Witness for the amended C6 at concrete inputs. -/
theorem degraded_send_inmemory_only_witness :
    (handleSendMessage "hi" "m1" "d1" 5 .ok localState).messages
      = localState.messages ++ [⟨"m1", "u1", "alice", jsTrim "hi", 5, .message⟩] ∧
    (handleSendMessage "hi" "m1" "d1" 5 .ok localState).localStore
      = localState.localStore ∧
    (handleSendMessage "hi" "m1" "d1" 5 .ok localState).remoteRows
      = localState.remoteRows :=
  degraded_send_inmemory_only localState "hi" "m1" "d1" 5 .ok aliceUser rfl
    (by decide) (by decide)

/-- C7 is refuted: a live-stream append of an event older than the log's tail
produces a visible sequence that is not ascending in `occurredAt`. -/
theorem append_breaks_ts_order :
    appendMessage (appendMessage [] eventA) lateEvent = [eventA, lateEvent] ∧
    ¬ SortedByTs [eventA, lateEvent] := by
  constructor
  · decide
  · unfold SortedByTs
    decide

/-- C7 amended: the initial bulk load yields a sequence ascending by
`occurredAt`, and a live-stream append places the arriving event at the end
of the sequence (arrival order); the result stays sorted only under the extra
assumption that the arriving event's timestamp is at least every timestamp
already displayed. -/
theorem fetch_sorted_append_at_end (rows prev : List Message) (m : Message)
    (hsorted : SortedByTs prev)
    (hge : ∀ x ∈ prev, x.timestamp ≤ m.timestamp) :
    SortedByTs (fetchQuery rows) ∧
    SortedByTs (appendMessage prev m) ∧
    (appendMessage prev m = prev ∨ appendMessage prev m = prev ++ [m]) := by
  refine ⟨?_, ?_, ?_⟩
  · exact List.Pairwise.sublist (List.take_sublist _ _)
      (List.sorted_insertionSort tsLe rows)
  · unfold appendMessage
    split
    · exact hsorted
    · exact List.pairwise_append.mpr
        ⟨hsorted, List.pairwise_singleton _ _,
          fun a ha b hb => by
            rw [List.mem_singleton.mp hb]
            exact hge a ha⟩
  · unfold appendMessage
    split
    · exact Or.inl rfl
    · exact Or.inr rfl

/-- Witness for the amended C7 at concrete inputs. -/
theorem fetch_sorted_append_at_end_witness :
    SortedByTs (fetchQuery [eventA, lateEvent]) ∧
    SortedByTs (appendMessage [] eventA) ∧
    (appendMessage [] eventA = [] ∨ appendMessage [] eventA = [] ++ [eventA]) :=
  fetch_sorted_append_at_end [eventA, lateEvent] [] eventA List.Pairwise.nil
    (by simp)

/-- C8: `handleCreateUser` rejects every input whose trim is empty — the state
is completely unchanged (no identity, no session, no system event) — and for
every other input it creates a user whose display name is the trimmed input. -/
theorem handleCreateUser_trim (st : AppState) (input newUserId msgId dbId : String)
    (now : Int) (r : PublishResult) :
    (trimChars input.data = [] →
      handleCreateUser input newUserId msgId dbId now r st = st) ∧
    (trimChars input.data ≠ [] →
      (handleCreateUser input newUserId msgId dbId now r st).currentUser
        = some ⟨newUserId, jsTrim input, .online, now⟩) := by
  constructor
  · intro h
    simp [handleCreateUser, h]
  · intro h
    simp only [handleCreateUser, if_neg h]
    by_cases hs : st.supabaseConfigured
    · simp only [hs, if_pos]
      exact (sendMessage_frame _ _ _).1
    · simp [hs]

/-- Witness for C8 at concrete inputs. -/
theorem handleCreateUser_trim_witness :
    (handleCreateUser "   " "u9" "m9" "d9" 7 .ok netState = netState) ∧
    ((handleCreateUser " bob " "u9" "m9" "d9" 7 .ok netState).currentUser
      = some ⟨"u9", jsTrim " bob ", .online, 7⟩) :=
  ⟨(handleCreateUser_trim netState "   " "u9" "m9" "d9" 7 .ok).1 (by decide),
    (handleCreateUser_trim netState " bob " "u9" "m9" "d9" 7 .ok).2 (by decide)⟩

/-- C9 is refuted: the unread badge filters only on the current user's id —
a `'stat'`-authored message event is counted by the badge whenever the
current user's id is not `"stat"`. -/
theorem unread_badge_counts_stat :
    statMsg.userId = "stat" ∧ unreadBadgeCount [statMsg] "u1" = 1 := by
  decide

/-- C9 amended: the rendered message list and the status-bar counter exclude
every event authored by `"stat"`, but the unread badge excludes only the
current user's own messages and does count `"stat"`-authored message events. -/
theorem stat_events_hidden_except_badge (msgs : List Message) (uid : String)
    (m : Message) (hm : m ∈ shownMessages msgs) (huid : uid ≠ "stat") :
    m.userId ≠ "stat" ∧
    statusBarMessageCount (msgs ++ [statMsg]) = statusBarMessageCount msgs ∧
    unreadBadgeCount (msgs ++ [statMsg]) uid = unreadBadgeCount msgs uid + 1 := by
  have h2 : ("stat" : String) ≠ uid := fun h => huid h.symm
  refine ⟨?_, ?_, ?_⟩
  · have := List.mem_filter.mp hm
    simpa using this.2
  · simp [statusBarMessageCount, List.filter_append, statMsg]
  · simp [unreadBadgeCount, List.filter_append, statMsg, h2]

/-- Witness for the amended C9 at concrete inputs. -/
theorem stat_events_hidden_except_badge_witness :
    eventA.userId ≠ "stat" ∧
    statusBarMessageCount ([eventA] ++ [statMsg]) = statusBarMessageCount [eventA] ∧
    unreadBadgeCount ([eventA] ++ [statMsg]) "u1" = unreadBadgeCount [eventA] "u1" + 1 :=
  stat_events_hidden_except_badge [eventA] "u1" eventA (by decide) (by decide)

/-- C10: `handleLogout` always completes its teardown — `currentUser` becomes
`none`, every persisted-identity entry is gone from the durable store, and
presence is untracked — for every publish outcome, because `sendMessage`
catches publish errors and reduces them to the connectivity-error flag (set
to the caught-exception message when the publish of the departing event
throws while logged in and networked). -/
theorem handleLogout_teardown (st : AppState) (dbId : String) (now : Int)
    (r : PublishResult) :
    (handleLogout dbId now r st).currentUser = none ∧
    (∀ kv ∈ (handleLogout dbId now r st).localStore,
      kv.1 ≠ "tappedin_current_user") ∧
    (handleLogout dbId now r st).presenceTracked = false ∧
    (st.currentUser.isSome = true → st.supabaseConfigured = true →
      (handleLogout dbId now .thrown st).connectionError
        = some "Failed to send message") := by
  refine ⟨rfl, ?_, rfl, ?_⟩
  · intro kv hkv
    simp only [handleLogout] at hkv
    have h2 := List.mem_filter.mp hkv
    simpa using h2.2
  · intro h1 h2
    cases hcu : st.currentUser with
    | none => rw [hcu] at h1; simp at h1
    | some cu =>
      simp [handleLogout, hcu, h2, sendMessage]

/-- Witness for C10 at concrete inputs. -/
theorem handleLogout_teardown_witness :
    (handleLogout "d1" 9 .thrown netState).currentUser = none ∧
    (handleLogout "d1" 9 .thrown netState).presenceTracked = false ∧
    (handleLogout "d1" 9 .thrown netState).connectionError
      = some "Failed to send message" ∧
    ("tappedin_current_user", "alice") ∉ (handleLogout "d1" 9 .thrown netState).localStore := by
  have h := handleLogout_teardown netState "d1" 9 .thrown
  refine ⟨h.1, h.2.2.1, h.2.2.2 (by decide) (by decide), ?_⟩
  intro hmem
  exact h.2.1 _ hmem rfl

end TappedIn
